import Mathlib

/-!
# Verification of the CTF flag submitter core (`niggas.py`)

A shallow embedding of the flag intake, rate-limited batch submission and
result-accounting pipeline of the `CTFchallengeSender` repository, together
with proofs of the specified properties.

Conventions of the embedding:
* Python strings are `String`, Python ints are `Nat`/`Int`/`ℚ` as appropriate.
* The submission queue is a `List String` (FIFO: enqueue appends at the tail).
* `defaultdict(int)` counters are insertion-ordered association lists
  `List (String × Nat)`; a missing key reads as `0`.
* File I/O and JSON encoding of the snapshot are external to the core (the
  spec treats persistence mechanics as a pluggable snapshot store), so
  `save_stats`/`load_stats` act on an explicit `Snapshot` value.
* Wall-clock time in the submitter loop is modelled by explicit rational
  time stamps; `time.sleep` advances the clock by the requested amount.
-/

namespace CTFSubmitter

/-- Base-36 digit value of a character, as Python's `int(·, 36)` assigns it:
decimal digits, and letters of either case (Python is case-insensitive),
all of which have value `< 36`. Other characters are not digits. -/
def digitVal36 (c : Char) : Option Nat :=
  if 48 ≤ c.toNat ∧ c.toNat ≤ 57 then some (c.toNat - 48)          -- '0'..'9'
  else if 65 ≤ c.toNat ∧ c.toNat ≤ 90 then some (c.toNat - 65 + 10) -- 'A'..'Z'
  else if 97 ≤ c.toNat ∧ c.toNat ≤ 122 then some (c.toNat - 97 + 10) -- 'a'..'z'
  else none

/-- Python `int(s, 36)` on a plain digit string: fails on the empty string or
on any non-digit character, otherwise folds the digit values. (Python also
tolerates surrounding whitespace, a sign, and underscore separators; no such
string reaches `int` in this program, so they are not modelled.) -/
def parseBase36 (s : String) : Option Nat :=
  if s.data = [] then none
  else s.data.foldl (fun acc c => acc.bind fun n => (digitVal36 c).map fun d => n * 36 + d)
    (some 0)

/-- Python slice `s[a:b]` for `0 ≤ a ≤ b`. -/
def pySlice (s : String) (a b : Nat) : String :=
  ⟨(s.data.drop a).take (b - a)⟩

/-- Is `c` allowed by the character class `[A-Z0-9]` of the flag regex? -/
def isFlagChar (c : Char) : Bool :=
  (65 ≤ c.toNat && c.toNat ≤ 90) || (48 ≤ c.toNat && c.toNat ≤ 57) -- A-Z or 0-9

/-- Does a character list consist of 31 `[A-Z0-9]` characters followed by `=`? -/
def flagCore (l : List Char) : Bool :=
  l.length = 32 && (l.take 31).all isFlagChar && l.drop 31 = ['=']

/-- Model of `FLAG_REGEX.match(s)`, i.e. Python `re.match(r"^[A-Z0-9]{31}=$", s)`.
Python's `$` (without `re.MULTILINE`) matches at the end of the string or
just before a single trailing newline, so a flag followed by one `'\n'`
also matches. -/
def flagRegexMatch (s : String) : Bool :=
  flagCore s.data || (s.data.getLast? = some '\n' && flagCore s.data.dropLast)

/-- The decoded metadata of a flag (`decode_flag`'s result dictionary). -/
structure DecodedFlag where
  round : Nat
  team : Nat
  service : Nat
  full_flag : String
deriving DecidableEq, Repr

/-- Model of `decode_flag`: base-36 decode of `flag[0:2]`, `flag[2:4]`, `flag[4:6]`;
any parse failure inside the `try` yields `None`. -/
def decode_flag (flag : String) : Option DecodedFlag :=
  match parseBase36 (pySlice flag 0 2), parseBase36 (pySlice flag 2 4),
      parseBase36 (pySlice flag 4 6) with
  | some r, some t, some s => some ⟨r, t, s, flag⟩
  | _, _, _ => none

/-- Model of `validate_flag`: format check, then a defensive decode check. -/
def validate_flag (flag : String) : Bool × String :=
  if !flagRegexMatch flag then (false, "Invalid format")
  else
    match decode_flag flag with
    | none => (false, "Decoding failed")
    | some _ => (true, "Valid")

/-- Model of `add_flag` (the intake entry point shared by the CLI, the form handler
and the JSON API handler): validate, and enqueue on success. Returns the
acceptance flag and the new queue. -/
def add_flag (q : List String) (flag : String) : Bool × List String :=
  if (validate_flag flag).1 then (true, q ++ [flag]) else (false, q)

/-! ## Remote submission (`submit_flags`) -/

/-- One entry of the result array: a dictionary whose `status`/`msg`/`flag`
keys may each be absent (reconciliation uses `.get` with defaults). -/
structure RawResult where
  flag : Option String := none
  status : Option String := none
  msg : Option String := none
deriving DecidableEq, Repr

/-- A result dictionary with no keys at all. -/
def nullResult : RawResult := ⟨none, none, none⟩

/-- The observable outcome of the `requests.put` call: a 200 response with a
parsed JSON body, a non-200 response, or a raised exception (timeout,
connection error, or a body that fails to parse as JSON). -/
inductive PutOutcome where
  | ok (body : List RawResult)
  | httpError (code : Nat) (text : String)
  | exc (msg : String)
deriving Repr

/-- Is the outcome a transport failure (non-200 status or exception)? -/
def PutOutcome.isFailure : PutOutcome → Bool
  | .ok _ => false
  | .httpError _ _ => true
  | .exc _ => true

/-- Model of `submit_flags`: empty input short-circuits to `[]`; a 200 response
returns its parsed body; a non-200 response or an exception synthesizes one
`ERROR` result per submitted flag. The Python function catches every
exception, so it is total. -/
def submit_flags (flags : List String) (o : PutOutcome) : List RawResult :=
  if flags = [] then []
  else
    match o with
    | .ok body => body
    | .httpError code _ =>
        flags.map fun f => ⟨some f, some "ERROR", some ("HTTP " ++ toString code)⟩
    | .exc m => flags.map fun f => ⟨some f, some "ERROR", some m⟩

/-! ## Stats state and reconciliation (`submitter_thread`, lines 130-171) -/

/-- A history entry's `team`/`service`/`round` field: a decoded integer, or
the literal string `"?"` written by the undecodable branch. -/
inductive MetaField where
  | num (n : Nat)
  | unknownMark
deriving DecidableEq, Repr

/-- One `submission_history` entry. -/
structure HistEntry where
  timestamp : String
  flag : String
  team : MetaField
  service : MetaField
  round : MetaField
  status : String
  message : String
deriving DecidableEq, Repr

/-- The mutable stats state: `submission_history`, `flags_by_team`,
`flags_by_service` (the two `defaultdict(int)` counters as insertion-ordered
association lists; a missing key reads as 0). -/
structure Stats where
  submission_history : List HistEntry
  flags_by_team : List (String × Nat)
  flags_by_service : List (String × Nat)
deriving DecidableEq, Repr

/-- The initial, empty stats state. -/
def Stats.empty : Stats := ⟨[], [], []⟩

/-- Read a counter `m[k]`: the value at the first (on a Python dict, only)
occurrence of the key, or the `defaultdict(int)` default 0. -/
def lookup0 : List (String × Nat) → String → Nat
  | [], _ => 0
  | p :: m, k => if p.1 = k then p.2 else lookup0 m k

/-- Python `m[k] += 1` on a `defaultdict(int)`: bump the (on a Python dict, unique)
occurrence of the key in place, or append the new key with value 1
(dicts preserve insertion order). -/
def incr : List (String × Nat) → String → List (String × Nat)
  | [], k => [(k, 1)]
  | p :: m, k => if p.1 = k then (p.1, p.2 + 1) :: m else p :: incr m k

/-- A sequence of counter bumps, leftmost first. -/
def applyIncrs (m : List (String × Nat)) (ks : List String) : List (String × Nat) :=
  ks.foldl incr m

/-- The total of all counts in a counter map. -/
def sumCounts (m : List (String × Nat)) : Nat :=
  (m.map Prod.snd).sum

/-- The history entry built for result index `i` (loop body lines 131-166):
`flag` is `batch[i]` when in range, else the placeholder `"unknown"`;
`status`/`msg` default to `"ERROR"`/`"No message"` when absent; decoded
flags record their numeric metadata and the truncated `flag[:6] + "..."`,
undecodable ones record `"?"` fields. -/
def mkEntry (ts : String) (batch : List String) (i : Nat) (r : RawResult) : HistEntry :=
  let flag := batch.getD i "unknown"
  let status := r.status.getD "ERROR"
  let msg := r.msg.getD "No message"
  match decode_flag flag with
  | some d =>
      ⟨ts, pySlice flag 0 6 ++ "...", .num d.team, .num d.service, .num d.round, status, msg⟩
  | none =>
      ⟨ts, if flag.length > 6 then pySlice flag 0 6 ++ "..." else flag,
        .unknownMark, .unknownMark, .unknownMark, status, msg⟩

/-- The counter update for result index `i`: both counters bump (keyed by
`str(team)` / `str(service)`) exactly when the flag decodes and the result
status is the string `"OK"`. -/
def updCounters (batch : List String) (i : Nat) (r : RawResult) (st : Stats) : Stats :=
  match decode_flag (batch.getD i "unknown") with
  | some d =>
      if r.status.getD "ERROR" = "OK" then
        { st with flags_by_team := incr st.flags_by_team (toString d.team),
                  flags_by_service := incr st.flags_by_service (toString d.service) }
      else st
  | none => st

/-- One iteration of the reconciliation loop body: update counters and
append the history entry. `tsf i` is the wall-clock text `datetime.now()`
renders at iteration `i`. -/
def recordResult (tsf : Nat → String) (batch : List String) (st : Stats) (i : Nat)
    (r : RawResult) : Stats :=
  { updCounters batch i r st with
    submission_history :=
      (updCounters batch i r st).submission_history ++ [mkEntry (tsf i) batch i r] }

/-- The `for i, result in enumerate(results)` loop, starting at index `i`. -/
def reconcileAux (tsf : Nat → String) (batch : List String) :
    Nat → Stats → List RawResult → Stats
  | _, st, [] => st
  | i, st, r :: rs => reconcileAux tsf batch (i + 1) (recordResult tsf batch st i r) rs

/-- The whole reconciliation step of `submitter_thread` for one batch. -/
def reconcile (tsf : Nat → String) (batch : List String) (results : List RawResult)
    (st : Stats) : Stats :=
  reconcileAux tsf batch 0 st results

/-- The counter keys (under projection `proj`: team or service) that result
index `i` contributes: one key when the flag decodes and the status is
`"OK"`, none otherwise. -/
def keyChunk (proj : DecodedFlag → Nat) (batch : List String) (i : Nat)
    (r : RawResult) : List String :=
  match decode_flag (batch.getD i "unknown") with
  | some d => if r.status.getD "ERROR" = "OK" then [toString (proj d)] else []
  | none => []

/-- All counter keys contributed by the results, starting at index `i`. -/
def keysFrom (proj : DecodedFlag → Nat) (batch : List String) :
    Nat → List RawResult → List String
  | _, [] => []
  | i, r :: rs => keyChunk proj batch i r ++ keysFrom proj batch (i + 1) rs

/-- The history entries appended by the results, starting at index `i`. -/
def entriesFrom (tsf : Nat → String) (batch : List String) :
    Nat → List RawResult → List HistEntry
  | _, [] => []
  | i, r :: rs => mkEntry (tsf i) batch i r :: entriesFrom tsf batch (i + 1) rs

/-- The counter key (`str(team)` or `str(service)`) a flag contributes when
its decode succeeds; junk (read off a zero decode) otherwise. -/
def keyOfProj (proj : DecodedFlag → Nat) (f : String) : String :=
  toString (proj ((decode_flag f).getD ⟨0, 0, 0, ""⟩))

/-! ## Snapshot persistence (`save_stats` / `load_stats`) -/

/-- The persisted JSON document `{history, by_team, by_service}`. File I/O
and JSON encoding are external to the core (the spec treats persistence as a
pluggable snapshot store); JSON round-trips the lists, string keys and
integer counts unchanged, so the snapshot is modelled as the value itself. -/
structure Snapshot where
  history : List HistEntry
  by_team : List (String × Nat)
  by_service : List (String × Nat)
deriving DecidableEq, Repr

/-- Python `l[-n:]`: the last `min n l.length` elements, in order. -/
def lastN (n : Nat) (l : List α) : List α :=
  l.drop (l.length - n)

/-- Model of `save_stats`: write `{'history': submission_history[-1000:],
'by_team': dict(flags_by_team), 'by_service': dict(flags_by_service)}`. -/
def save_stats (st : Stats) : Snapshot :=
  ⟨lastN 1000 st.submission_history, st.flags_by_team, st.flags_by_service⟩

/-- Model of `load_stats` on a fresh instance whose stats file holds `snap`: seed the
three fields from the document (`data.get` defaults never fire since
`save_stats` writes all three keys). -/
def load_stats (snap : Snapshot) : Stats :=
  ⟨snap.history, snap.by_team, snap.by_service⟩

/-- The tail of `submitter_thread`'s loop for a non-empty drained batch:
reconcile the results, then persist a snapshot. Returns the new in-memory
state and the written snapshot. -/
def process_batch (tsf : Nat → String) (batch : List String) (results : List RawResult)
    (st : Stats) : Stats × Snapshot :=
  let st' := reconcile tsf batch results st
  (st', save_stats st')

/-! ## Pacing (`submitter_thread`, lines 112-128)

Wall-clock time is modelled by rational time stamps. One loop iteration
reads `now = time.time()`, sleeps `2.0 - (now - last)` seconds when
`now - last < 2.0`, spends some nonnegative time collecting the batch,
calls `submit_flags` (which takes some nonnegative time), and then sets
`last_submission = time.time()` — unconditionally, whatever the call's
outcome, since `submit_flags` never raises. -/

/-- The measured delays of one loop iteration: the time the batch-collection
loop takes and the time the `submit_flags` call takes. -/
structure IterDelays where
  drainDelay : ℚ
  callDuration : ℚ
deriving Repr

/-- The clock value after the pacing step (lines 113-118), given the stored
`last_submission` and the wake-up time `now`: sleep `2 - (now - last)` when
the elapsed time is below the 2-second floor (`60 / 30` requests/minute). -/
def afterPacing (last now : ℚ) : ℚ :=
  if now - last < 2 then now + (2 - (now - last)) else now

/-- The time at which the dispatch attempt (the `submit_flags` call, line
127) starts: pacing, then batch collection. -/
def attemptStart (last now : ℚ) (d : IterDelays) : ℚ :=
  afterPacing last now + d.drainDelay

/-- The time at which the `submit_flags` call returns. -/
def attemptEnd (last now : ℚ) (d : IterDelays) : ℚ :=
  attemptStart last now d + d.callDuration

/-- The `last_submission` value after one iteration that dispatched a
non-empty batch: line 128 stores the call-return time, independently of the
call's outcome `o` (success, HTTP error or exception). -/
def lastAfterIter (last now : ℚ) (d : IterDelays) (o : PutOutcome) : ℚ :=
  match o with
  | .ok _ => attemptEnd last now d
  | .httpError _ _ => attemptEnd last now d
  | .exc _ => attemptEnd last now d

/-! ## Dashboard summary (`home`, lines 184-187) -/

/-- The number of history entries whose status is `"OK"`
(`sum(1 for item in history if item['status'] == 'OK')`). -/
def countOK (h : List HistEntry) : Nat :=
  h.countP fun e => e.status = "OK"

/-- Python `success_rate = (successful / total_submitted * 100) if total_submitted
> 0 else 0`, with exact rational arithmetic in place of Python floats. -/
def success_rate (h : List HistEntry) : ℚ :=
  if 0 < h.length then (countOK h : ℚ) / (h.length : ℚ) * 100 else 0

/-! ## Codec lemmas -/

theorem digitVal36_isSome_of_flagChar (c : Char) (h : isFlagChar c = true) :
    (digitVal36 c).isSome := by
  simp only [isFlagChar, Bool.or_eq_true, Bool.and_eq_true, decide_eq_true_eq] at h
  unfold digitVal36
  split
  · rfl
  · split
    · rfl
    · split
      · rfl
      · omega

theorem foldDigits_isSome (l : List Char) :
    ∀ n : Nat, (∀ c ∈ l, (digitVal36 c).isSome) →
      (l.foldl (fun acc c => acc.bind fun m => (digitVal36 c).map fun d => m * 36 + d)
        (some n)).isSome := by
  induction l with
  | nil => intro n _; rfl
  | cons c l ih =>
      intro n hl
      obtain ⟨d, hd⟩ := Option.isSome_iff_exists.mp (hl c (List.mem_cons_self c l))
      rw [List.foldl_cons]
      have hstep :
          ((some n).bind fun m => (digitVal36 c).map fun d => m * 36 + d)
            = some (n * 36 + d) := by
        simp [hd]
      rw [hstep]
      exact ih _ fun c' hc' => hl c' (List.mem_cons_of_mem _ hc')

theorem parseBase36_isSome (s : String) (hne : s.data ≠ [])
    (h : ∀ c ∈ s.data, (digitVal36 c).isSome) : (parseBase36 s).isSome := by
  unfold parseBase36
  rw [if_neg hne]
  exact foldDigits_isSome s.data 0 h

theorem pySlice_data_pair (s : String) (a : Nat) (h : a + 1 < s.data.length) :
    (pySlice s a (a + 2)).data = [s.data[a], s.data[a + 1]] := by
  have h0 : a < s.data.length := by omega
  show (s.data.drop a).take (a + 2 - a) = _
  have h2 : a + 2 - a = 2 := by omega
  rw [h2, List.drop_eq_getElem_cons h0, List.drop_eq_getElem_cons h]
  rfl

/-- A format-valid token (either regex branch) has at least 32 characters
and its first 31 characters are all in `[A-Z0-9]`. -/
theorem match_chars (s : String) (h : flagRegexMatch s = true) :
    32 ≤ s.data.length ∧
      ∀ i, i < 31 → ∀ hi : i < s.data.length, isFlagChar (s.data[i]) = true := by
  unfold flagRegexMatch flagCore at h
  simp only [Bool.or_eq_true, Bool.and_eq_true, decide_eq_true_eq] at h
  rcases h with ⟨⟨hlen, hall⟩, -⟩ | ⟨-, ⟨hlen, hall⟩, -⟩
  · refine ⟨by omega, fun i hi31 hi => ?_⟩
    have ht : i < (s.data.take 31).length := by
      rw [List.length_take]; omega
    have := List.all_eq_true.mp hall _ (List.getElem_mem ht)
    rwa [List.getElem_take] at this
  · have hlen' : s.data.length = 33 := by
      have := s.data.length_dropLast
      omega
    refine ⟨by omega, fun i hi31 hi => ?_⟩
    have hdl : i < s.data.dropLast.length := by
      rw [List.length_dropLast]; omega
    have ht : i < (s.data.dropLast.take 31).length := by
      rw [List.length_take, List.length_dropLast]; omega
    have := List.all_eq_true.mp hall _ (List.getElem_mem ht)
    rw [List.getElem_take, List.getElem_dropLast] at this
    exact this

/-- On a format-valid token, all three base-36 parses of `decode_flag`
succeed, and `decode_flag` packages exactly their values. -/
theorem decode_flag_of_match (s : String) (h : flagRegexMatch s = true) :
    ∃ r t sv, parseBase36 (pySlice s 0 2) = some r ∧
      parseBase36 (pySlice s 2 4) = some t ∧
      parseBase36 (pySlice s 4 6) = some sv ∧
      decode_flag s = some ⟨r, t, sv, s⟩ := by
  obtain ⟨hlen, hchars⟩ := match_chars s h
  have hslice : ∀ a : Nat, a + 1 < 31 → (parseBase36 (pySlice s a (a + 2))).isSome := by
    intro a ha
    have hb : a + 1 < s.data.length := by omega
    have hdata := pySlice_data_pair s a hb
    apply parseBase36_isSome
    · rw [hdata]; exact List.cons_ne_nil _ _
    · intro c hc
      rw [hdata] at hc
      rcases List.mem_pair.mp hc with rfl | rfl
      · exact digitVal36_isSome_of_flagChar _ (hchars a (by omega) (by omega))
      · exact digitVal36_isSome_of_flagChar _ (hchars (a + 1) (by omega) hb)
  obtain ⟨r, hr⟩ := Option.isSome_iff_exists.mp (hslice 0 (by omega))
  obtain ⟨t, ht⟩ := Option.isSome_iff_exists.mp (hslice 2 (by omega))
  obtain ⟨sv, hsv⟩ := Option.isSome_iff_exists.mp (hslice 4 (by omega))
  exact ⟨r, t, sv, hr, ht, hsv, by simp [decode_flag, hr, ht, hsv]⟩

/-- On a format-valid token, `validate_flag` succeeds with reason `"Valid"`:
the defensive `DecodeFailed` branch never fires. -/
theorem validate_flag_of_match (s : String) (h : flagRegexMatch s = true) :
    validate_flag s = (true, "Valid") := by
  obtain ⟨r, t, sv, -, -, -, hd⟩ := decode_flag_of_match s h
  simp [validate_flag, h, hd]

/-! ## Counter lemmas -/

theorem lookup0_incr_self (m : List (String × Nat)) (k : String) :
    lookup0 (incr m k) k = lookup0 m k + 1 := by
  induction m with
  | nil => simp [incr, lookup0]
  | cons p m ih =>
      by_cases h : p.1 = k
      · simp [incr, lookup0, h]
      · simp [incr, lookup0, h, ih]

theorem lookup0_incr_other (m : List (String × Nat)) (k k' : String) (h : k' ≠ k) :
    lookup0 (incr m k) k' = lookup0 m k' := by
  induction m with
  | nil => simp [incr, lookup0, Ne.symm h]
  | cons p m ih =>
      by_cases hp : p.1 = k
      · have hkk' : k ≠ k' := Ne.symm h
        simp [incr, lookup0, hp, hkk']
      · by_cases hq : p.1 = k'
        · simp [incr, lookup0, hp, hq, h]
        · simp [incr, lookup0, hp, hq, ih]

theorem sumCounts_incr (m : List (String × Nat)) (k : String) :
    sumCounts (incr m k) = sumCounts m + 1 := by
  induction m with
  | nil => simp [incr, sumCounts]
  | cons p m ih =>
      by_cases h : p.1 = k
      · simp [incr, sumCounts, h]
        omega
      · simp [incr, sumCounts, h] at ih ⊢
        omega

theorem lookup0_applyIncrs (ks : List String) :
    ∀ m k, lookup0 (applyIncrs m ks) k = lookup0 m k + ks.count k := by
  induction ks with
  | nil => intro m k; simp [applyIncrs]
  | cons k0 ks ih =>
      intro m k
      have : applyIncrs m (k0 :: ks) = applyIncrs (incr m k0) ks := rfl
      rw [this, ih]
      by_cases h : k0 = k
      · subst h
        rw [lookup0_incr_self, List.count_cons_self]
        omega
      · rw [lookup0_incr_other m k0 k (Ne.symm h), List.count_cons_of_ne (Ne.symm h)]

theorem sumCounts_applyIncrs (ks : List String) :
    ∀ m, sumCounts (applyIncrs m ks) = sumCounts m + ks.length := by
  induction ks with
  | nil => intro m; simp [applyIncrs]
  | cons k0 ks ih =>
      intro m
      have : applyIncrs m (k0 :: ks) = applyIncrs (incr m k0) ks := rfl
      rw [this, ih, sumCounts_incr, List.length_cons]
      omega

theorem applyIncrs_append (m : List (String × Nat)) (ks ks' : List String) :
    applyIncrs m (ks ++ ks') = applyIncrs (applyIncrs m ks) ks' :=
  List.foldl_append ..

/-! ## Reconciliation structure lemmas -/

theorem recordResult_eq (tsf : Nat → String) (B : List String) (st : Stats) (i : Nat)
    (r : RawResult) :
    recordResult tsf B st i r =
      ⟨st.submission_history ++ [mkEntry (tsf i) B i r],
        applyIncrs st.flags_by_team (keyChunk DecodedFlag.team B i r),
        applyIncrs st.flags_by_service (keyChunk DecodedFlag.service B i r)⟩ := by
  unfold recordResult updCounters keyChunk
  cases hd : decode_flag (B.getD i "unknown") with
  | none => simp [applyIncrs]
  | some d =>
      by_cases hok : r.status.getD "ERROR" = "OK"
      · simp [hok, applyIncrs]
      · simp [hok, applyIncrs]

theorem reconcileAux_eq (tsf : Nat → String) (B : List String) :
    ∀ (R : List RawResult) (i : Nat) (st : Stats),
      reconcileAux tsf B i st R =
        ⟨st.submission_history ++ entriesFrom tsf B i R,
          applyIncrs st.flags_by_team (keysFrom DecodedFlag.team B i R),
          applyIncrs st.flags_by_service (keysFrom DecodedFlag.service B i R)⟩ := by
  intro R
  induction R with
  | nil =>
      intro i st
      simp [reconcileAux, entriesFrom, keysFrom, applyIncrs]
  | cons r rs ih =>
      intro i st
      show reconcileAux tsf B (i + 1) (recordResult tsf B st i r) rs = _
      rw [ih, recordResult_eq]
      simp [entriesFrom, keysFrom, applyIncrs_append]

theorem reconcile_eq (tsf : Nat → String) (B : List String) (R : List RawResult)
    (st : Stats) :
    reconcile tsf B R st =
      ⟨st.submission_history ++ entriesFrom tsf B 0 R,
        applyIncrs st.flags_by_team (keysFrom DecodedFlag.team B 0 R),
        applyIncrs st.flags_by_service (keysFrom DecodedFlag.service B 0 R)⟩ :=
  reconcileAux_eq tsf B R 0 st

theorem entriesFrom_length (tsf : Nat → String) (B : List String) :
    ∀ (R : List RawResult) (i : Nat), (entriesFrom tsf B i R).length = R.length := by
  intro R
  induction R with
  | nil => intro i; rfl
  | cons r rs ih => intro i; simp [entriesFrom, ih]

/-! ## Entry and key characterizations -/

theorem mkEntry_of_decoded (ts : String) (B : List String) (i : Nat) (r : RawResult)
    (hi : i < B.length) (d : DecodedFlag) (hd : decode_flag B[i] = some d) :
    mkEntry ts B i r =
      ⟨ts, pySlice B[i] 0 6 ++ "...", .num d.team, .num d.service, .num d.round,
        r.status.getD "ERROR", r.msg.getD "No message"⟩ := by
  unfold mkEntry
  rw [List.getD_eq_getElem B _ hi]
  dsimp only
  rw [hd]

theorem mkEntry_of_overflow (ts : String) (B : List String) (i : Nat) (r : RawResult)
    (hi : B.length ≤ i) :
    mkEntry ts B i r =
      ⟨ts, "unknow...", .num 743, .num 896, .num 1103,
        r.status.getD "ERROR", r.msg.getD "No message"⟩ := by
  unfold mkEntry
  rw [List.getD_eq_default B _ hi]
  rfl

theorem keyChunk_of_decoded (proj : DecodedFlag → Nat) (B : List String) (i : Nat)
    (r : RawResult) (hi : i < B.length) (d : DecodedFlag)
    (hd : decode_flag B[i] = some d) :
    keyChunk proj B i r =
      if r.status.getD "ERROR" = "OK" then [toString (proj d)] else [] := by
  unfold keyChunk
  rw [List.getD_eq_getElem B _ hi, hd]

theorem keyChunk_of_overflow (proj : DecodedFlag → Nat) (B : List String) (i : Nat)
    (r : RawResult) (hi : B.length ≤ i) :
    keyChunk proj B i r =
      if r.status.getD "ERROR" = "OK"
      then [toString (proj ⟨1103, 743, 896, "unknown"⟩)] else [] := by
  unfold keyChunk
  rw [List.getD_eq_default B _ hi]
  rfl

theorem keyChunk_length_eq (B : List String) (i : Nat) (r : RawResult) :
    (keyChunk DecodedFlag.team B i r).length =
      (keyChunk DecodedFlag.service B i r).length := by
  unfold keyChunk
  cases decode_flag (B.getD i "unknown") with
  | none => rfl
  | some d =>
      dsimp only
      by_cases h : r.status.getD "ERROR" = "OK"
      · rw [if_pos h, if_pos h]
        rfl
      · rw [if_neg h, if_neg h]

theorem keysFrom_length_eq (B : List String) :
    ∀ (R : List RawResult) (i : Nat),
      (keysFrom DecodedFlag.team B i R).length =
        (keysFrom DecodedFlag.service B i R).length := by
  intro R
  induction R with
  | nil => intro i; rfl
  | cons r rs ih =>
      intro i
      simp [keysFrom, keyChunk_length_eq, ih]

/-! ## The batch beyond the result count is irrelevant -/

theorem mkEntry_congr (ts : String) (B B' : List String) (i : Nat) (r : RawResult)
    (h : B.getD i "unknown" = B'.getD i "unknown") :
    mkEntry ts B i r = mkEntry ts B' i r := by
  unfold mkEntry
  rw [h]

theorem keyChunk_congr (proj : DecodedFlag → Nat) (B B' : List String) (i : Nat)
    (r : RawResult) (h : B.getD i "unknown" = B'.getD i "unknown") :
    keyChunk proj B i r = keyChunk proj B' i r := by
  unfold keyChunk
  rw [h]

theorem entriesFrom_congr (tsf : Nat → String) (B B' : List String) :
    ∀ (R : List RawResult) (i : Nat),
      (∀ j, i ≤ j → j < i + R.length → B.getD j "unknown" = B'.getD j "unknown") →
      entriesFrom tsf B i R = entriesFrom tsf B' i R := by
  intro R
  induction R with
  | nil => intro i _; rfl
  | cons r rs ih =>
      intro i h
      unfold entriesFrom
      rw [mkEntry_congr (tsf i) B B' i r (h i le_rfl (by simp)),
        ih (i + 1) fun j hj hj' => h j (by omega) (by simp at hj' ⊢; omega)]

theorem keysFrom_congr (proj : DecodedFlag → Nat) (B B' : List String) :
    ∀ (R : List RawResult) (i : Nat),
      (∀ j, i ≤ j → j < i + R.length → B.getD j "unknown" = B'.getD j "unknown") →
      keysFrom proj B i R = keysFrom proj B' i R := by
  intro R
  induction R with
  | nil => intro i _; rfl
  | cons r rs ih =>
      intro i h
      unfold keysFrom
      rw [keyChunk_congr proj B B' i r (h i le_rfl (by simp)),
        ih (i + 1) fun j hj hj' => h j (by omega) (by simp at hj' ⊢; omega)]

theorem getD_take_agree (B : List String) (n j : Nat) (hj : j < n) :
    B.getD j "unknown" = (B.take n).getD j "unknown" := by
  rw [List.getD_eq_getElem?_getD, List.getD_eq_getElem?_getD, List.getElem?_take,
    if_pos hj]

/-- Reconciliation never looks at batch entries at or beyond the number of
returned results: truncating the batch there changes nothing. -/
theorem reconcile_take (tsf : Nat → String) (B : List String) (R : List RawResult)
    (st : Stats) :
    reconcile tsf B R st = reconcile tsf (B.take R.length) R st := by
  rw [reconcile_eq, reconcile_eq]
  have hag : ∀ j, 0 ≤ j → j < 0 + R.length →
      B.getD j "unknown" = (B.take R.length).getD j "unknown" := by
    intro j _ hj
    exact getD_take_agree B R.length j (by omega)
  rw [entriesFrom_congr tsf B _ R 0 hag, keysFrom_congr DecodedFlag.team B _ R 0 hag,
    keysFrom_congr DecodedFlag.service B _ R 0 hag]

theorem keysFrom_of_ok (proj : DecodedFlag → Nat) (B : List String)
    (hB : ∀ f ∈ B, flagRegexMatch f = true) :
    ∀ (R : List RawResult) (i : Nat), i + R.length = B.length →
      (∀ r ∈ R, r.status = some "OK") →
      keysFrom proj B i R = (B.drop i).map (keyOfProj proj) := by
  intro R
  induction R with
  | nil =>
      intro i hlen _
      simp only [keysFrom, List.length_nil] at hlen ⊢
      rw [List.drop_eq_nil_of_le (by omega), List.map_nil]
  | cons r rs ih =>
      intro i hlen hOK
      simp only [List.length_cons] at hlen
      have hi : i < B.length := by omega
      obtain ⟨rr, t, sv, -, -, -, hd⟩ :=
        decode_flag_of_match B[i] (hB _ (List.getElem_mem hi))
      have hst : r.status.getD "ERROR" = "OK" := by
        rw [hOK r (List.mem_cons_self r rs)]
        rfl
      have hch : keyChunk proj B i r = [toString (proj ⟨rr, t, sv, B[i]⟩)] := by
        rw [keyChunk_of_decoded proj B i r hi _ hd, if_pos hst]
      have hkey : keyOfProj proj B[i] = toString (proj ⟨rr, t, sv, B[i]⟩) := by
        unfold keyOfProj
        rw [hd, Option.getD_some]
      simp only [keysFrom]
      rw [hch, ih (i + 1) (by omega) (fun r' hr' => hOK r' (List.mem_cons_of_mem _ hr')),
        List.drop_eq_getElem_cons hi, List.map_cons, hkey]
      rfl

theorem entriesFrom_get? (tsf : Nat → String) (B : List String) :
    ∀ (R : List RawResult) (i j : Nat), j < R.length →
      (entriesFrom tsf B i R)[j]? =
        some (mkEntry (tsf (i + j)) B (i + j) (R.getD j nullResult)) := by
  intro R
  induction R with
  | nil =>
      intro i j hj
      exact absurd hj (by simp)
  | cons r rs ih =>
      intro i j hj
      cases j with
      | zero => simp [entriesFrom, List.getD]
      | succ j =>
          have hj' : j < rs.length := by
            simp only [List.length_cons] at hj
            omega
          have harith : i + 1 + j = i + (j + 1) := by omega
          have h2 := ih (i + 1) j hj'
          rw [harith] at h2
          simp only [entriesFrom, List.getElem?_cons_succ, List.getD_cons_succ]
          exact h2

/-! ## The claims -/

/-- C4: every string failing the flag regex is rejected by the intake entry
point with reason `"Invalid format"` and leaves the queue unchanged; every
matching string is accepted and enqueued at the tail. -/
theorem C4_intake_validation (q : List String) (f : String) :
    (flagRegexMatch f = false →
      add_flag q f = (false, q) ∧ validate_flag f = (false, "Invalid format")) ∧
    (flagRegexMatch f = true → add_flag q f = (true, q ++ [f])) := by
  constructor
  · intro h
    have hv : validate_flag f = (false, "Invalid format") := by
      simp [validate_flag, h]
    exact ⟨by simp [add_flag, hv], hv⟩
  · intro h
    simp [add_flag, validate_flag_of_match f h]

/-- Witness for C4 at a malformed and a well-formed input. -/
theorem C4_intake_validation_witness :
    add_flag [] "not-a-flag" = (false, []) ∧
      add_flag [] "AAAAAAAAAAAAAAAAAAAAAAAAAAAAAAA=" =
        (true, ["AAAAAAAAAAAAAAAAAAAAAAAAAAAAAAA="]) :=
  ⟨((C4_intake_validation [] "not-a-flag").1 (by decide)).1,
    (C4_intake_validation [] "AAAAAAAAAAAAAAAAAAAAAAAAAAAAAAA=").2 (by decide)⟩

/-- C5: on every format-valid string, all three base-36 parses succeed and
`decode_flag` returns exactly their values as round/team/service, so
`validate_flag` never reaches its defensive `"Decoding failed"` branch; the
parses behave as base-36 (`"01"` is 1, `"0A"` is 10, `"1A"` is 46). -/
theorem C5_decode_deterministic (s : String) (h : flagRegexMatch s = true) :
    (∃ r t sv, parseBase36 (pySlice s 0 2) = some r ∧
      parseBase36 (pySlice s 2 4) = some t ∧
      parseBase36 (pySlice s 4 6) = some sv ∧
      decode_flag s = some ⟨r, t, sv, s⟩) ∧
    validate_flag s = (true, "Valid") ∧
    parseBase36 "01" = some 1 ∧ parseBase36 "0A" = some 10 ∧
    parseBase36 "1A" = some 46 :=
  ⟨decode_flag_of_match s h, validate_flag_of_match s h, by decide, by decide, by decide⟩

/-- Witness for C5 at a concrete format-valid flag. -/
theorem C5_decode_deterministic_witness :
    validate_flag "0A1B2CAAAAAAAAAAAAAAAAAAAAAAAAA=" = (true, "Valid") :=
  (C5_decode_deterministic "0A1B2CAAAAAAAAAAAAAAAAAAAAAAAAA=" (by decide)).2.1

/-- C6: the snapshot round-trip reproduces both counter maps identically,
and a history equal to the most recent at-most-1000 entries of the original
history in original order (a suffix of length `min 1000 ·`). -/
theorem C6_snapshot_roundtrip (st : Stats) :
    (load_stats (save_stats st)).flags_by_team = st.flags_by_team ∧
    (load_stats (save_stats st)).flags_by_service = st.flags_by_service ∧
    (load_stats (save_stats st)).submission_history =
      lastN 1000 st.submission_history ∧
    (load_stats (save_stats st)).submission_history.length =
      min 1000 st.submission_history.length ∧
    List.IsSuffix (load_stats (save_stats st)).submission_history
      st.submission_history := by
  refine ⟨by simp [load_stats, save_stats], by simp [load_stats, save_stats],
    by simp [load_stats, save_stats], ?_, ?_⟩
  · simp only [load_stats, save_stats, lastN, List.length_drop]
    omega
  · have hh : (load_stats (save_stats st)).submission_history =
        st.submission_history.drop (st.submission_history.length - 1000) := by
      simp [load_stats, save_stats, lastN]
    rw [hh]
    exact List.drop_suffix _ _

/-- C8: every persistence write goes through `save_stats`, which stores the
history truncated to its most recent at-most-1000 entries; the batch loop's
write is exactly that, and reloading the written snapshot recovers only
those entries, so older ones are gone. -/
theorem C8_history_truncation (tsf : Nat → String) (B : List String)
    (R : List RawResult) (st : Stats) :
    (process_batch tsf B R st).2 = save_stats (process_batch tsf B R st).1 ∧
    (save_stats st).history = lastN 1000 st.submission_history ∧
    (save_stats st).history.length ≤ 1000 ∧
    List.IsSuffix (save_stats st).history st.submission_history ∧
    (load_stats (save_stats st)).submission_history = (save_stats st).history := by
  have hh : (save_stats st).history =
      st.submission_history.drop (st.submission_history.length - 1000) := by
    simp [save_stats, lastN]
  refine ⟨rfl, by simp [save_stats], ?_, ?_, by simp [load_stats]⟩
  · rw [hh, List.length_drop]
    omega
  · rw [hh]
    exact List.drop_suffix _ _

/-- C9: the dashboard's success rate is the `"OK"` fraction of the history
times 100 (0 on an empty history); with 3 `"OK"` entries out of 4 it is
exactly 75. -/
theorem C9_success_rate (h : List HistEntry) :
    (0 < h.length → success_rate h = (countOK h : ℚ) / (h.length : ℚ) * 100) ∧
    (h.length = 0 → success_rate h = 0) ∧
    (countOK h = 3 → h.length = 4 → success_rate h = 75) := by
  refine ⟨fun hpos => ?_, fun hz => ?_, fun h3 h4 => ?_⟩
  · rw [success_rate, if_pos hpos]
  · rw [success_rate, if_neg (by omega)]
  · rw [success_rate, if_pos (by omega), h3, h4]
    norm_num

/-- Witness for C9 on a concrete 4-entry history with 3 `"OK"` entries. -/
theorem C9_success_rate_witness :
    success_rate
      [⟨"t", "f", .num 1, .num 1, .num 1, "OK", "m"⟩,
        ⟨"t", "f", .num 1, .num 1, .num 1, "OK", "m"⟩,
        ⟨"t", "f", .num 1, .num 1, .num 1, "ERROR", "m"⟩,
        ⟨"t", "f", .num 1, .num 1, .num 1, "OK", "m"⟩] = 75 :=
  (C9_success_rate _).2.2 (by decide) (by decide)

/-- C7: on any transport failure (exception or non-200 status) with a
non-empty batch, `submit_flags` returns exactly one result per input flag,
each with status `"ERROR"` and a non-empty message (assuming the exception's
rendered message is non-empty, as `requests` errors are); it is a total
function, so it never raises. -/
theorem C7_failure_synthesis (flags : List String) (o : PutOutcome)
    (hne : flags ≠ []) (hfail : o.isFailure = true)
    (hexc : ∀ m, o = .exc m → m ≠ "") :
    (submit_flags flags o).length = flags.length ∧
    ∀ r ∈ submit_flags flags o, r.status = some "ERROR" ∧
      ∃ m, r.msg = some m ∧ m ≠ "" := by
  cases o with
  | ok body => simp [PutOutcome.isFailure] at hfail
  | httpError code text =>
      unfold submit_flags
      rw [if_neg hne]
      refine ⟨by simp, ?_⟩
      intro r hr
      simp only [List.mem_map] at hr
      obtain ⟨f, -, rfl⟩ := hr
      refine ⟨rfl, "HTTP " ++ toString code, rfl, ?_⟩
      intro hcontra
      have hl := String.length_append "HTTP " (toString code)
      rw [hcontra] at hl
      have h0 : ("" : String).length = 0 := rfl
      have h5 : ("HTTP " : String).length = 5 := rfl
      rw [h0, h5] at hl
      omega
  | exc m =>
      unfold submit_flags
      rw [if_neg hne]
      refine ⟨by simp, ?_⟩
      intro r hr
      simp only [List.mem_map] at hr
      obtain ⟨f, -, rfl⟩ := hr
      exact ⟨rfl, m, rfl, hexc m rfl⟩

/-- Witness for C7 on a one-flag batch and an HTTP 500 failure. -/
theorem C7_failure_synthesis_witness :
    (submit_flags ["AAAA"] (.httpError 500 "boom")).length = 1 :=
  (C7_failure_synthesis ["AAAA"] (.httpError 500 "boom") (by decide) rfl
    (fun m hm => by simp at hm)).1

/-- C2: `last_submission` is set to the call-return time regardless of the
call's outcome, and two consecutive dispatch attempts start at least the
2-second floor apart: the second attempt's start is at least 2 seconds
after the first attempt's start, whatever the wake-up times and however
long the first call took (durations are nonnegative). -/
theorem C2_rate_pacing (last now1 now2 : ℚ) (t1 t2 : IterDelays)
    (h1 : 0 ≤ t1.callDuration) (h2 : 0 ≤ t2.drainDelay) :
    (∀ o : PutOutcome, lastAfterIter last now1 t1 o = attemptEnd last now1 t1) ∧
    attemptStart last now1 t1 + 2 ≤ attemptStart (attemptEnd last now1 t1) now2 t2 := by
  constructor
  · intro o
    cases o <;> rfl
  · have hp : attemptEnd last now1 t1 + 2 ≤ afterPacing (attemptEnd last now1 t1) now2 := by
      unfold afterPacing
      split
      · linarith
      · rename_i h
        linarith [not_lt.mp h]
    have e1 : attemptStart (attemptEnd last now1 t1) now2 t2 =
        afterPacing (attemptEnd last now1 t1) now2 + t2.drainDelay := rfl
    have e2 : attemptEnd last now1 t1 = attemptStart last now1 t1 + t1.callDuration := rfl
    linarith [hp, e1, e2]

/-- Witness for C2 at concrete times and delays. -/
theorem C2_rate_pacing_witness :
    lastAfterIter 0 0 ⟨0, 0⟩ (.ok []) = attemptEnd 0 0 ⟨0, 0⟩ ∧
      attemptStart 0 0 ⟨0, 0⟩ + 2 ≤ attemptStart (attemptEnd 0 0 ⟨0, 0⟩) 0 ⟨0, 0⟩ := by
  have h := C2_rate_pacing 0 0 0 ⟨0, 0⟩ ⟨0, 0⟩ (le_refl 0) (le_refl 0)
  exact ⟨h.1 (.ok []), h.2⟩

/-- C1 counterexample: with a one-flag batch and two `"OK"` results, the
claim says the index-1 history entry carries unknown team/service/round
fields; in fact the placeholder string `"unknown"` decodes under Python's
case-insensitive base-36 `int`, so the entry's team field is the number 743
(`int("kn", 36)`), not the unknown marker. -/
theorem C1_reconciliation_alignment_counterexample :
    ((reconcile (fun _ => "ts") ["AAAAAAAAAAAAAAAAAAAAAAAAAAAAAAA="]
        [⟨none, some "OK", some "accepted"⟩, ⟨none, some "OK", some "accepted"⟩]
        Stats.empty).submission_history.map HistEntry.team)[1]? =
      some (MetaField.num 743) ∧
    ((reconcile (fun _ => "ts") ["AAAAAAAAAAAAAAAAAAAAAAAAAAAAAAA="]
        [⟨none, some "OK", some "accepted"⟩, ⟨none, some "OK", some "accepted"⟩]
        Stats.empty).submission_history.map HistEntry.team)[1]? ≠
      some MetaField.unknownMark := by
  decide

/-- C1 (amended): reconciliation appends exactly one history entry per
returned result, in result order; the entry at index `i` is built from
flag `batch[i]` when `i` is in range, and from the placeholder `"unknown"`
when `i` is beyond the batch — which, decoding under Python's lenient
base-36 parse, yields the numeric fields team 743, service 896, round 1103
(not unknown markers); batch flags at indices at or beyond the result count
leave no history entry and cause no counter update (truncating the batch at
the result count changes nothing). -/
theorem C1_reconciliation_alignment (tsf : Nat → String) (B : List String)
    (R : List RawResult) (st : Stats) (hB : ∀ f ∈ B, flagRegexMatch f = true) :
    (reconcile tsf B R st).submission_history.length
        = st.submission_history.length + R.length ∧
    (∀ j, j < R.length → ∀ hjB : j < B.length, ∃ d, decode_flag B[j] = some d ∧
      (reconcile tsf B R st).submission_history[st.submission_history.length + j]? =
        some ⟨tsf j, pySlice B[j] 0 6 ++ "...", .num d.team, .num d.service,
          .num d.round, (R.getD j nullResult).status.getD "ERROR",
          (R.getD j nullResult).msg.getD "No message"⟩) ∧
    (∀ j, j < R.length → B.length ≤ j →
      (reconcile tsf B R st).submission_history[st.submission_history.length + j]? =
        some ⟨tsf j, "unknow...", .num 743, .num 896, .num 1103,
          (R.getD j nullResult).status.getD "ERROR",
          (R.getD j nullResult).msg.getD "No message"⟩) ∧
    reconcile tsf B R st = reconcile tsf (B.take R.length) R st := by
  have hrec := reconcile_eq tsf B R st
  have hget : ∀ j, j < R.length →
      (reconcile tsf B R st).submission_history[st.submission_history.length + j]? =
        some (mkEntry (tsf j) B j (R.getD j nullResult)) := by
    intro j hj
    rw [hrec]
    show (st.submission_history ++ entriesFrom tsf B 0 R)[st.submission_history.length + j]? = _
    rw [List.getElem?_append_right (by omega)]
    have hidx : st.submission_history.length + j - st.submission_history.length = j := by
      omega
    rw [hidx]
    have h0 := entriesFrom_get? tsf B R 0 j hj
    rw [Nat.zero_add] at h0
    exact h0
  refine ⟨?_, ?_, ?_, reconcile_take tsf B R st⟩
  · rw [hrec]
    simp [entriesFrom_length]
  · intro j hj hjB
    obtain ⟨r, t, sv, -, -, -, hd⟩ :=
      decode_flag_of_match B[j] (hB _ (List.getElem_mem hjB))
    refine ⟨⟨r, t, sv, B[j]⟩, hd, ?_⟩
    rw [hget j hj, mkEntry_of_decoded (tsf j) B j (R.getD j nullResult) hjB _ hd]
  · intro j hj hjB
    rw [hget j hj, mkEntry_of_overflow (tsf j) B j (R.getD j nullResult) hjB]

/-- Witness for C1 (amended) on a one-flag batch with one result. -/
theorem C1_reconciliation_alignment_witness :
    (reconcile (fun _ => "t") ["AAAAAAAAAAAAAAAAAAAAAAAAAAAAAAA="]
        [⟨none, some "OK", none⟩] Stats.empty).submission_history.length =
      (Stats.empty).submission_history.length + 1 :=
  (C1_reconciliation_alignment (fun _ => "t") ["AAAAAAAAAAAAAAAAAAAAAAAAAAAAAAA="]
    [⟨none, some "OK", none⟩] Stats.empty (by decide)).1

/-- C3: for a batch of format-valid flags whose results all have status
`"OK"` and match the batch in length, each team counter grows by exactly
the number of batch flags decoding to that team (1 per flag), likewise for
services, and the history gains exactly one `"OK"` entry per flag, in input
order. -/
theorem C3_ok_batch_accounting (tsf : Nat → String) (B : List String)
    (R : List RawResult) (st : Stats)
    (hB : ∀ f ∈ B, flagRegexMatch f = true)
    (hlen : R.length = B.length)
    (hOK : ∀ r ∈ R, r.status = some "OK") :
    (∀ k, lookup0 (reconcile tsf B R st).flags_by_team k =
        lookup0 st.flags_by_team k +
          B.countP (fun f => keyOfProj DecodedFlag.team f == k)) ∧
    (∀ k, lookup0 (reconcile tsf B R st).flags_by_service k =
        lookup0 st.flags_by_service k +
          B.countP (fun f => keyOfProj DecodedFlag.service f == k)) ∧
    (reconcile tsf B R st).submission_history.length =
      st.submission_history.length + B.length ∧
    (∀ j, ∀ hjB : j < B.length, ∃ d, decode_flag B[j] = some d ∧
      (reconcile tsf B R st).submission_history[st.submission_history.length + j]? =
        some ⟨tsf j, pySlice B[j] 0 6 ++ "...", .num d.team, .num d.service,
          .num d.round, "OK", (R.getD j nullResult).msg.getD "No message"⟩) := by
  have hrec := reconcile_eq tsf B R st
  have hkeys : ∀ proj : DecodedFlag → Nat,
      keysFrom proj B 0 R = B.map (keyOfProj proj) := by
    intro proj
    have h0 := keysFrom_of_ok proj B hB R 0 (by omega) hOK
    rw [List.drop_zero] at h0
    exact h0
  have hcount : ∀ (proj : DecodedFlag → Nat) (k : String),
      (B.map (keyOfProj proj)).count k =
        B.countP (fun f => keyOfProj proj f == k) := by
    intro proj k
    rw [List.count, List.countP_map]
    rfl
  refine ⟨?_, ?_, ?_, ?_⟩
  · intro k
    rw [hrec]
    show lookup0 (applyIncrs st.flags_by_team (keysFrom DecodedFlag.team B 0 R)) k = _
    rw [lookup0_applyIncrs, hkeys, hcount]
  · intro k
    rw [hrec]
    show lookup0 (applyIncrs st.flags_by_service (keysFrom DecodedFlag.service B 0 R)) k = _
    rw [lookup0_applyIncrs, hkeys, hcount]
  · rw [hrec]
    simp [entriesFrom_length, hlen]
  · intro j hjB
    have hj : j < R.length := by omega
    obtain ⟨r, t, sv, -, -, -, hd⟩ :=
      decode_flag_of_match B[j] (hB _ (List.getElem_mem hjB))
    refine ⟨⟨r, t, sv, B[j]⟩, hd, ?_⟩
    have hst : (R.getD j nullResult).status.getD "ERROR" = "OK" := by
      rw [List.getD_eq_getElem R nullResult hj, hOK _ (List.getElem_mem hj)]
      rfl
    rw [hrec]
    show (st.submission_history ++ entriesFrom tsf B 0 R)[st.submission_history.length + j]? = _
    rw [List.getElem?_append_right (by omega)]
    have hidx : st.submission_history.length + j - st.submission_history.length = j := by
      omega
    rw [hidx]
    have h0 := entriesFrom_get? tsf B R 0 j hj
    rw [Nat.zero_add] at h0
    rw [h0, mkEntry_of_decoded (tsf j) B j (R.getD j nullResult) hjB _ hd, hst]

/-- Witness for C3 on a one-flag, one-`"OK"`-result batch. -/
theorem C3_ok_batch_accounting_witness :
    lookup0 (reconcile (fun _ => "t") ["0A1B2CAAAAAAAAAAAAAAAAAAAAAAAAA="]
        [⟨none, some "OK", some "accepted"⟩] Stats.empty).flags_by_team "47" =
      lookup0 (Stats.empty).flags_by_team "47" +
        ["0A1B2CAAAAAAAAAAAAAAAAAAAAAAAAA="].countP
          (fun f => keyOfProj DecodedFlag.team f == "47") :=
  (C3_ok_batch_accounting (fun _ => "t") ["0A1B2CAAAAAAAAAAAAAAAAAAAAAAAAA="]
    [⟨none, some "OK", some "accepted"⟩] Stats.empty (by decide) (by decide)
    (by decide)).1 "47"

theorem sumCounts_reconcile_balanced (tsf : Nat → String) (B : List String)
    (R : List RawResult) (st : Stats)
    (h : sumCounts st.flags_by_team = sumCounts st.flags_by_service) :
    sumCounts (reconcile tsf B R st).flags_by_team =
      sumCounts (reconcile tsf B R st).flags_by_service := by
  rw [reconcile_eq]
  show sumCounts (applyIncrs st.flags_by_team (keysFrom DecodedFlag.team B 0 R)) = _
  rw [sumCounts_applyIncrs, sumCounts_applyIncrs, h, keysFrom_length_eq]

theorem sumCounts_steps_balanced :
    ∀ (steps : List ((Nat → String) × List String × List RawResult)) (st : Stats),
      sumCounts st.flags_by_team = sumCounts st.flags_by_service →
      sumCounts ((steps.foldl (fun s p => reconcile p.1 p.2.1 p.2.2 s) st).flags_by_team)
        = sumCounts
            ((steps.foldl (fun s p => reconcile p.1 p.2.1 p.2.2 s) st).flags_by_service) := by
  intro steps
  induction steps with
  | nil => intro st h; exact h
  | cons p ps ih =>
      intro st h
      exact ih _ (sumCounts_reconcile_balanced p.1 p.2.1 p.2.2 st h)

/-- C10 counterexample: the claim's example asserts the synthetic
`"unknown"` flag is undecodable and so a status-`"OK"` result for it
updates neither counter. In fact `"unknown"` decodes (Python's base-36
`int` is case-insensitive), and an `"OK"` result beyond the batch bumps
team counter `"743"` and service counter `"896"`. -/
theorem C10_counter_balance_counterexample :
    decode_flag "unknown" = some ⟨1103, 743, 896, "unknown"⟩ ∧
    lookup0 (reconcile (fun _ => "ts") ["AAAAAAAAAAAAAAAAAAAAAAAAAAAAAAA="]
        [⟨none, some "OK", none⟩, ⟨none, some "OK", none⟩]
        Stats.empty).flags_by_team "743" = 1 ∧
    lookup0 (reconcile (fun _ => "ts") ["AAAAAAAAAAAAAAAAAAAAAAAAAAAAAAA="]
        [⟨none, some "OK", none⟩, ⟨none, some "OK", none⟩]
        Stats.empty).flags_by_service "896" = 1 := by
  decide

/-- C10 (amended): starting from equal team/service counter totals, any
sequence of reconciliation steps keeps the totals equal; a result updates
the counters only when its status is exactly `"OK"` and its flag decodes,
and then it bumps exactly one team and one service counter together. (The
synthetic `"unknown"` flag in fact decodes, so an `"OK"` result beyond the
batch also bumps one counter of each kind — the balance still holds.) -/
theorem C10_counter_balance (st : Stats)
    (h : sumCounts st.flags_by_team = sumCounts st.flags_by_service) :
    (∀ steps : List ((Nat → String) × List String × List RawResult),
      sumCounts ((steps.foldl (fun s p => reconcile p.1 p.2.1 p.2.2 s) st).flags_by_team)
        = sumCounts
            ((steps.foldl (fun s p => reconcile p.1 p.2.1 p.2.2 s) st).flags_by_service)) ∧
    (∀ (B : List String) (i : Nat) (r : RawResult) (st' : Stats),
      decode_flag (B.getD i "unknown") = none → updCounters B i r st' = st') ∧
    (∀ (B : List String) (i : Nat) (r : RawResult) (st' : Stats),
      r.status.getD "ERROR" ≠ "OK" → updCounters B i r st' = st') ∧
    (∀ (B : List String) (i : Nat) (r : RawResult) (st' : Stats) (d : DecodedFlag),
      decode_flag (B.getD i "unknown") = some d → r.status.getD "ERROR" = "OK" →
      updCounters B i r st' =
        { st' with flags_by_team := incr st'.flags_by_team (toString d.team),
                   flags_by_service := incr st'.flags_by_service (toString d.service) }) := by
  refine ⟨fun steps => sumCounts_steps_balanced steps st h, ?_, ?_, ?_⟩
  · intro B i r st' hnone
    unfold updCounters
    rw [hnone]
  · intro B i r st' hst
    unfold updCounters
    cases hdec : decode_flag (B.getD i "unknown") with
    | none => rfl
    | some d => simp [hst]
  · intro B i r st' d hdec hst
    unfold updCounters
    rw [hdec]
    dsimp only
    rw [if_pos hst]

/-- Witness for C10 (amended) at the empty state. -/
theorem C10_counter_balance_witness :
    updCounters [] 0 ⟨none, some "ERROR", none⟩ Stats.empty = Stats.empty :=
  (C10_counter_balance Stats.empty rfl).2.2.1 [] 0 ⟨none, some "ERROR", none⟩
    Stats.empty (by decide)

end CTFSubmitter
